import Mathlib

/- Shallow embedding of src/dnf5.py, an Ansible-oriented command-line client
   of the libdnf5 package engine.  The engine itself (libdnf5) is modelled as
   an abstract `Engine` record supplying the result of every engine call the
   script makes; the script's own control flow is embedded faithfully, with
   its observable actions (goal building, resolving, signature checks,
   printing, downloading, running the transaction) recorded as a trace of
   events.  Python exceptions surface as `Except.error`. -/

namespace Dnf5

/-- A Python runtime error the embedded fragment can raise (only sequence
indexing, as in `specs[0]`, can raise here). -/
inductive PyErr
  | indexError
deriving DecidableEq

/-- A package record as read off a libdnf5 package object. -/
structure Package where
  name : String
  arch : String
  epoch : Nat
  version : String
  release : String
  repo : String
  nevra : String
deriving DecidableEq

/-- One entry of `transaction.get_transaction_packages()`: the package together
with the string rendering of its transaction action. -/
structure TsPackage where
  pkg : Package
  action : String
deriving DecidableEq

/-- An intent added to the goal: one constructor per `goal.add_*` call made by
`ensure` in src/dnf5.py. -/
inductive Intent
  | rpmUpgrade
  | install (spec : String)
  | upgrade (spec : String)
  | remove (spec : String)
  | rpmRemove (p : Package)
deriving DecidableEq

/-- The data of the transaction object returned by `goal.resolve()`:
`get_transaction_packages()`, `get_problems()` (an integer flag set, truthy
iff nonzero), `get_resolve_logs_as_strings()`, the result code of `run()` and
`get_transaction_problems()` after the run. -/
structure TransactionData where
  packages : List TsPackage
  problems : Nat
  resolveLogs : List String
  runResult : Nat
  runProblems : List String

/-- Observable events of one script invocation, in program order. -/
inductive Event
  | initEngine
  | newGoal
  | addIntent (i : Intent)
  | resolve
  | checkSig (p : Package)
  | download
  | setDescription (s : String)
  | run
  | output (items : List (List (String × String)))
  | print (line : String)
deriving DecidableEq

/-- The libdnf5 engine as seen through the calls src/dnf5.py makes:
query filters, spec resolution, goal resolution, signature checking, and the
engine constants the script compares against. -/
structure Engine where
  filterQuery : String → List Package
  enabledRepos : List String
  resolveSpec : String → List Package
  resolve : List Intent → TransactionData
  checkSignature : Package → Nat
  unneededInstalled : List Package
  successCode : Nat
  checkResultOK : Nat
  resultToString : Nat → String

/-- `_package_dict`: the dict built for one package, as an association list in
the source key order. -/
def packageDict (p : Package) : List (String × String) :=
  [("name", p.name), ("arch", p.arch), ("epoch", toString p.epoch),
   ("release", p.release), ("version", p.version), ("repo", p.repo)]

/-- The `list` method of `Dnf5AnsibleUsecases`: a recognized first keyword
selects a predefined query, `repos`/`repositories` lists enabled repository
ids, and anything else treats the whole argument list as specs, each resolved
against a fresh package query, results concatenated. -/
def listOp (env : Engine) (args : List String) : Except PyErr (List (List (String × String))) :=
  match args with
  | [] => Except.error PyErr.indexError
  | cmd :: _ =>
    if cmd ∈ (["installed", "upgrades", "available"] : List String) then
      Except.ok ((env.filterQuery cmd).map packageDict)
    else if cmd ∈ (["repos", "repositories"] : List String) then
      Except.ok (env.enabledRepos.map fun rid => [("repoid", rid), ("state", "enabled")])
    else
      Except.ok (args.flatMap fun spec => (env.resolveSpec spec).map packageDict)

/-- The goal-building prefix of `ensure`: the chain of `if`/`elif` branches
that add intents to the goal.  Mirrors the source exactly, including the
evaluation of `specs[0]` (raising IndexError on an empty spec list) whenever
`cmd == 'latest'`. -/
def buildIntents (env : Engine) (cmd : String) (specs : List String) : Except PyErr (List Intent) :=
  if cmd = "latest" then
    match specs with
    | [] => Except.error PyErr.indexError
    | s0 :: _ =>
      if s0 = "*" then Except.ok [Intent.rpmUpgrade]
      else Except.ok (specs.map Intent.upgrade)
  else if cmd ∈ (["installed", "present"] : List String) then
    Except.ok (specs.map Intent.install)
  else if cmd = "absent" then
    Except.ok (specs.map Intent.remove)
  else if cmd = "autoremove" then
    Except.ok (env.unneededInstalled.map Intent.rpmRemove)
  else
    Except.ok []

/-- The signature-check section of `ensure`: when the transaction has
packages, every transaction package has its signature checked, and every
check result other than `CheckResult_OK` is reported by a printed line. -/
def sigEvents (env : Engine) (tx : TransactionData) : List Event :=
  if tx.packages = [] then []
  else
    tx.packages.flatMap fun tp =>
      Event.checkSig tp.pkg ::
        (if env.checkSignature tp.pkg = env.checkResultOK then []
         else [Event.print ("Failed to validate package signature for \"" ++ tp.pkg.nevra
           ++ "\" with error \"" ++ toString (env.checkSignature tp.pkg) ++ "\".")])

/-- The resolution-problem report of `ensure`: if `get_problems()` is truthy
the header and each resolve log line are printed, otherwise a success line. -/
def resolveReport (tx : TransactionData) : List Event :=
  if tx.problems ≠ 0 then
    Event.print ("Following issues happened when resolving the transaction:")
      :: tx.resolveLogs.map Event.print
  else
    [Event.print ("Transaction resolved correctly.")]

/-- The transaction-summary report of `ensure`: one line per transaction
package, or the fixed empty-transaction line. -/
def summaryReport (tx : TransactionData) : List Event :=
  if tx.packages = [] then
    [Event.print ("Transaction is empty.")]
  else
    Event.print ("Transaction summary:")
      :: tx.packages.map fun tp =>
        Event.print ("Package \"" ++ tp.pkg.nevra ++ "\". Action \"" ++ tp.action ++ "\".")

/-- The post-run report of `_do_transaction`: the result code is compared to
the engine success constant; on success a fixed success line is printed, on
failure the result string and, when present, every transaction problem line. -/
def runReport (env : Engine) (tx : TransactionData) : List Event :=
  if tx.runResult = env.successCode then
    [Event.print ("Transaction completed successfully.")]
  else
    Event.print ("Transaction was not successful: " ++ env.resultToString tx.runResult)
      :: (if tx.runProblems = [] then []
          else Event.print ("Following issues happened when executing the transaction:")
            :: tx.runProblems.map Event.print)

/-- `_do_transaction`: download, annotate with the fixed description
"Ansible", run, then report on the run result. -/
def doTransaction (env : Engine) (tx : TransactionData) : List Event :=
  Event.download :: Event.setDescription ("Ansible") :: Event.run :: runReport env tx

/-- The trace of a completed `ensure` run, given the intents that were added
and the transaction the engine resolved them to. -/
def ensureTrace (env : Engine) (intents : List Intent) (tx : TransactionData) : List Event :=
  Event.newGoal :: (intents.map Event.addIntent ++ Event.resolve ::
    (sigEvents env tx ++ resolveReport tx ++ summaryReport tx ++ doTransaction env tx))

/-- The `ensure` method of `Dnf5AnsibleUsecases`: build the goal, resolve it
once, report signature and resolution problems, print the summary, then hand
the transaction to `_do_transaction`. -/
def ensure (env : Engine) (cmd : String) (specs : List String) : Except PyErr (List Event) :=
  match buildIntents env cmd specs with
  | Except.error e => Except.error e
  | Except.ok intents => Except.ok (ensureTrace env intents (env.resolve intents))

/-- How a run of `main` terminates: a `sys.exit` code, normal fall-through
(code 0), or an uncaught Python exception. -/
inductive ExitStatus
  | code (n : Nat)
  | uncaught (e : PyErr)
deriving DecidableEq

/-- The dispatch part of `main`, after the engine session is constructed:
run `list` or `ensure` on the remaining arguments; any other command word
does nothing.  An uncaught Python exception terminates the process. -/
def dispatchCmd (env : Engine) (command : String) (args : List String) :
    List Event × ExitStatus :=
  if command = "list" then
    match listOp env args with
    | Except.ok items => ([Event.initEngine, Event.output items], ExitStatus.code 0)
    | Except.error e => ([Event.initEngine], ExitStatus.uncaught e)
  else if command = "ensure" then
    match args with
    | a0 :: rest =>
      match ensure env a0 rest with
      | Except.ok tr => (Event.initEngine :: tr, ExitStatus.code 0)
      | Except.error e => ([Event.initEngine], ExitStatus.uncaught e)
    | [] => ([Event.initEngine], ExitStatus.uncaught PyErr.indexError)
  else
    ([Event.initEngine], ExitStatus.code 0)

/-- `main`: with fewer than 3 argv entries print the usage line and exit 1;
otherwise construct the engine session and dispatch on `argv[1]` with the
arguments `argv[2:]`. -/
def mainRun (env : Engine) (argv : List String) : List Event × ExitStatus :=
  if argv.length < 3 then
    ([Event.print ("Invalid args")], ExitStatus.code 1)
  else
    dispatchCmd env (argv.getD 1 ("")) (argv.drop 2)

/-- An event emitted by one of the reporting sections: a printed line or a
signature check. -/
def reportOnly (e : Event) : Prop :=
  (∃ s, e = Event.print s) ∨ ∃ p, e = Event.checkSig p

/-- The part of a trace that happens strictly before the first run of the
transaction. -/
def preRun (tr : List Event) : List Event :=
  tr.takeWhile fun e => !(e == Event.run)

/-- A concrete package, used to exercise the embedding. -/
def pkgA : Package :=
  { name := "zlib", arch := "x86_64", epoch := 0, version := "1.2.13",
    release := "3.fc38", repo := "fedora", nevra := "zlib-0:1.2.13-3.fc38.x86_64" }

/-- A concrete transaction package for `pkgA`. -/
def tsA : TsPackage := { pkg := pkgA, action := "Install" }

/-- A concrete resolved transaction carrying resolution problems, a failing
run result and a post-run problem log. -/
def txFail : TransactionData :=
  { packages := [tsA], problems := 1, resolveLogs := ["nothing provides foo"],
    runResult := 3, runProblems := ["scriptlet failure"] }

/-- A concrete engine whose resolver always yields `txFail` and whose
signature check always fails. -/
def engFail : Engine :=
  { filterQuery := fun _ => [pkgA], enabledRepos := ["fedora"],
    resolveSpec := fun _ => [pkgA], resolve := fun _ => txFail,
    checkSignature := fun _ => 2, unneededInstalled := [],
    successCode := 0, checkResultOK := 0, resultToString := fun n => toString n }

/-- A concrete empty resolved transaction. -/
def txEmpty : TransactionData :=
  { packages := [], problems := 0, resolveLogs := [], runResult := 0, runProblems := [] }

/-- A concrete engine whose resolver always yields the empty transaction and
whose spec resolution never matches. -/
def engEmpty : Engine :=
  { filterQuery := fun _ => [], enabledRepos := [],
    resolveSpec := fun _ => [], resolve := fun _ => txEmpty,
    checkSignature := fun _ => 0, unneededInstalled := [],
    successCode := 0, checkResultOK := 0, resultToString := fun n => toString n }

/-- The trace of `ensure engFail "present" ["zlib"]`. -/
def trPresent : List Event := ensureTrace engFail [Intent.install ("zlib")] txFail

/-- The trace of `ensure engFail "latest" ["*"]`. -/
def trLatestStar : List Event := ensureTrace engFail [Intent.rpmUpgrade] txFail

/-- The trace of `ensure engEmpty "frobnicate" ["x"]`. -/
def trUnknown : List Event := ensureTrace engEmpty [] txEmpty

/-- The trace of `ensure engEmpty "absent" ["zlib"]`. -/
def trAbsent : List Event := ensureTrace engEmpty [Intent.remove ("zlib")] txEmpty

/-- The result of `listOp engFail ["zlib", "zl*"]`: both specs match `pkgA`,
so its dict appears twice. -/
def lDup : List (List (String × String)) := [packageDict pkgA, packageDict pkgA]

/-- Every event of the signature-check section is a check or a printed line. -/
theorem sigEvents_reportOnly (env : Engine) (tx : TransactionData) :
    ∀ e ∈ sigEvents env tx, reportOnly e := by
  intro e he
  rw [sigEvents] at he
  split at he
  · simp at he
  · rcases List.mem_flatMap.mp he with ⟨tp, _, hmem⟩
    rcases List.mem_cons.mp hmem with h | h
    · exact Or.inr ⟨tp.pkg, h⟩
    · split at h
      · simp at h
      · simp at h
        exact Or.inl ⟨_, h⟩

/-- Every event of the resolution report is a printed line. -/
theorem resolveReport_reportOnly (tx : TransactionData) :
    ∀ e ∈ resolveReport tx, reportOnly e := by
  intro e he
  rw [resolveReport] at he
  split at he
  · rcases List.mem_cons.mp he with h | h
    · exact Or.inl ⟨_, h⟩
    · rcases List.mem_map.mp h with ⟨s, _, hs⟩
      exact Or.inl ⟨s, hs.symm⟩
  · simp at he
    exact Or.inl ⟨_, he⟩

/-- Every event of the transaction summary is a printed line. -/
theorem summaryReport_reportOnly (tx : TransactionData) :
    ∀ e ∈ summaryReport tx, reportOnly e := by
  intro e he
  rw [summaryReport] at he
  split at he
  · simp at he
    exact Or.inl ⟨_, he⟩
  · rcases List.mem_cons.mp he with h | h
    · exact Or.inl ⟨_, h⟩
    · rcases List.mem_map.mp h with ⟨tp, _, hs⟩
      exact Or.inl ⟨_, hs.symm⟩

/-- Every event of the post-run report is a printed line. -/
theorem runReport_reportOnly (env : Engine) (tx : TransactionData) :
    ∀ e ∈ runReport env tx, reportOnly e := by
  intro e he
  rw [runReport] at he
  split at he
  · simp at he
    exact Or.inl ⟨_, he⟩
  · rcases List.mem_cons.mp he with h | h
    · exact Or.inl ⟨_, h⟩
    · split at h
      · simp at h
      · rcases List.mem_cons.mp h with h2 | h2
        · exact Or.inl ⟨_, h2⟩
        · rcases List.mem_map.mp h2 with ⟨s, _, hs⟩
          exact Or.inl ⟨s, hs.symm⟩

/-- An event that is neither a print nor a check never occurs in a
report-only segment. -/
theorem not_mem_of_reportOnly (l : List Event) (h : ∀ e ∈ l, reportOnly e)
    (x : Event) (hx : ∀ s, x ≠ Event.print s) (hp : ∀ p, x ≠ Event.checkSig p) :
    x ∉ l := by
  intro hm
  rcases h x hm with ⟨s, hs⟩ | ⟨p, hpp⟩
  · exact hx s hs
  · exact hp p hpp

/-- An event that is neither a print nor a check has count 0 in a
report-only segment. -/
theorem count_eq_zero_of_reportOnly (l : List Event) (h : ∀ e ∈ l, reportOnly e)
    (x : Event) (hx : ∀ s, x ≠ Event.print s) (hp : ∀ p, x ≠ Event.checkSig p) :
    l.count x = 0 :=
  List.count_eq_zero.mpr (not_mem_of_reportOnly l h x hx hp)

/-- Intent events never occur in a list of `addIntent`-free constructors. -/
theorem count_eq_zero_of_mem_map_addIntent (intents : List Intent) (x : Event)
    (hx : ∀ i, x ≠ Event.addIntent i) :
    (intents.map Event.addIntent).count x = 0 := by
  refine List.count_eq_zero.mpr fun hm => ?_
  rcases List.mem_map.mp hm with ⟨i, _, hi⟩
  exact hx i hi.symm

/-- A successful goal build determines the whole `ensure` trace. -/
theorem ensure_ok_eq (env : Engine) (cmd : String) (specs : List String)
    (intents : List Intent) (h : buildIntents env cmd specs = Except.ok intents) :
    ensure env cmd specs = Except.ok (ensureTrace env intents (env.resolve intents)) := by
  rw [ensure, h]

/-- A successful `ensure` trace is the canonical trace of its intents. -/
theorem ensure_ok_trace (env : Engine) (cmd : String) (specs : List String)
    (intents : List Intent) (tr : List Event)
    (h : buildIntents env cmd specs = Except.ok intents)
    (h2 : ensure env cmd specs = Except.ok tr) :
    tr = ensureTrace env intents (env.resolve intents) := by
  rw [ensure_ok_eq env cmd specs intents h] at h2
  exact (Except.ok.inj h2).symm

/-- The `ensure` trace splits at the single run event. -/
theorem ensureTrace_decomp (env : Engine) (intents : List Intent) (tx : TransactionData) :
    ensureTrace env intents tx =
      (Event.newGoal :: (intents.map Event.addIntent ++ Event.resolve ::
        (sigEvents env tx ++ resolveReport tx ++ summaryReport tx
          ++ [Event.download, Event.setDescription ("Ansible")])))
      ++ Event.run :: runReport env tx := by
  simp [ensureTrace, doTransaction]

/-- A report-only event is not the run event. -/
theorem ne_run_of_reportOnly (e : Event) (h : reportOnly e) :
    (!(e == Event.run)) = true := by
  rcases h with ⟨s, rfl⟩ | ⟨p, rfl⟩ <;> simp

/-- `takeWhile` passes over a first block that satisfies the predicate. -/
theorem takeWhile_append_all {α : Type} (p : α → Bool) (l1 l2 : List α)
    (h : ∀ e ∈ l1, p e = true) :
    (l1 ++ l2).takeWhile p = l1 ++ l2.takeWhile p := by
  induction l1 with
  | nil => simp
  | cons a t ih =>
    have ha : p a = true := h a (List.mem_cons_self a t)
    simp only [List.cons_append, List.takeWhile_cons, ha, if_true]
    rw [ih fun e he => h e (List.mem_cons_of_mem a he)]

/-- Everything before the run event in an `ensure` trace: goal building, the
resolve call, the signature checks, the reports, the download and the
description annotation. -/
theorem preRun_ensureTrace (env : Engine) (intents : List Intent) (tx : TransactionData) :
    preRun (ensureTrace env intents tx) =
      Event.newGoal :: (intents.map Event.addIntent ++ Event.resolve ::
        (sigEvents env tx ++ resolveReport tx ++ summaryReport tx
          ++ [Event.download, Event.setDescription ("Ansible")])) := by
  rw [preRun, ensureTrace_decomp, takeWhile_append_all]
  · simp [List.takeWhile_cons]
  · intro e he
    simp only [List.mem_cons, List.mem_append] at he
    rcases he with rfl | he
    · simp
    rcases he with hmap | he
    · rcases List.mem_map.mp hmap with ⟨i, _, hi⟩
      rw [← hi]
      simp
    rcases he with rfl | he
    · simp
    rcases he with hseg | he
    rcases hseg with hseg | hseg
    rcases hseg with hseg | hseg
    · exact ne_run_of_reportOnly e (sigEvents_reportOnly env tx e hseg)
    · exact ne_run_of_reportOnly e (resolveReport_reportOnly tx e hseg)
    · exact ne_run_of_reportOnly e (summaryReport_reportOnly tx e hseg)
    · rcases he with rfl | rfl | he
      · simp
      · simp
      · simp at he

/-- A checked transaction package appears in the signature-check section. -/
theorem checkSig_mem_sigEvents (env : Engine) (tx : TransactionData) (tp : TsPackage)
    (h : tp ∈ tx.packages) :
    Event.checkSig tp.pkg ∈ sigEvents env tx := by
  rw [sigEvents]
  split
  · rename_i hnil
    rw [hnil] at h
    simp at h
  · exact List.mem_flatMap.mpr ⟨tp, h, List.mem_cons_self _ _⟩

/-- The run event occurs exactly once in every `ensure` trace. -/
theorem ensureTrace_count_run (env : Engine) (intents : List Intent) (tx : TransactionData) :
    (ensureTrace env intents tx).count Event.run = 1 := by
  have hA := count_eq_zero_of_mem_map_addIntent intents Event.run (by simp)
  have hS := count_eq_zero_of_reportOnly _ (sigEvents_reportOnly env tx) Event.run
    (by simp) (by simp)
  have hR := count_eq_zero_of_reportOnly _ (resolveReport_reportOnly tx) Event.run
    (by simp) (by simp)
  have hY := count_eq_zero_of_reportOnly _ (summaryReport_reportOnly tx) Event.run
    (by simp) (by simp)
  have hD := count_eq_zero_of_reportOnly _ (runReport_reportOnly env tx) Event.run
    (by simp) (by simp)
  simp [ensureTrace, doTransaction, List.count_cons, List.count_append, hA, hS, hR, hY, hD]

/-- The resolve event occurs exactly once in every `ensure` trace. -/
theorem ensureTrace_count_resolve (env : Engine) (intents : List Intent) (tx : TransactionData) :
    (ensureTrace env intents tx).count Event.resolve = 1 := by
  have hA := count_eq_zero_of_mem_map_addIntent intents Event.resolve (by simp)
  have hS := count_eq_zero_of_reportOnly _ (sigEvents_reportOnly env tx) Event.resolve
    (by simp) (by simp)
  have hR := count_eq_zero_of_reportOnly _ (resolveReport_reportOnly tx) Event.resolve
    (by simp) (by simp)
  have hY := count_eq_zero_of_reportOnly _ (summaryReport_reportOnly tx) Event.resolve
    (by simp) (by simp)
  have hD := count_eq_zero_of_reportOnly _ (runReport_reportOnly env tx) Event.resolve
    (by simp) (by simp)
  simp [ensureTrace, doTransaction, List.count_cons, List.count_append, hA, hS, hR, hY, hD]

/-- The goal-creation event occurs exactly once in every `ensure` trace. -/
theorem ensureTrace_count_newGoal (env : Engine) (intents : List Intent) (tx : TransactionData) :
    (ensureTrace env intents tx).count Event.newGoal = 1 := by
  have hA := count_eq_zero_of_mem_map_addIntent intents Event.newGoal (by simp)
  have hS := count_eq_zero_of_reportOnly _ (sigEvents_reportOnly env tx) Event.newGoal
    (by simp) (by simp)
  have hR := count_eq_zero_of_reportOnly _ (resolveReport_reportOnly tx) Event.newGoal
    (by simp) (by simp)
  have hY := count_eq_zero_of_reportOnly _ (summaryReport_reportOnly tx) Event.newGoal
    (by simp) (by simp)
  have hD := count_eq_zero_of_reportOnly _ (runReport_reportOnly env tx) Event.newGoal
    (by simp) (by simp)
  simp [ensureTrace, doTransaction, List.count_cons, List.count_append, hA, hS, hR, hY, hD]

/-- The download and run events occur in every `ensure` trace. -/
theorem download_run_mem_ensureTrace (env : Engine) (intents : List Intent)
    (tx : TransactionData) :
    Event.download ∈ ensureTrace env intents tx ∧ Event.run ∈ ensureTrace env intents tx := by
  constructor <;> simp [ensureTrace, doTransaction]

/-- Resolution-report lines appear in the `ensure` trace. -/
theorem mem_trace_of_mem_resolveReport (env : Engine) (intents : List Intent)
    (tx : TransactionData) (e : Event) (h : e ∈ resolveReport tx) :
    e ∈ ensureTrace env intents tx := by
  simp only [ensureTrace, List.mem_cons, List.mem_append]
  tauto

/-- Summary lines appear in the `ensure` trace. -/
theorem mem_trace_of_mem_summaryReport (env : Engine) (intents : List Intent)
    (tx : TransactionData) (e : Event) (h : e ∈ summaryReport tx) :
    e ∈ ensureTrace env intents tx := by
  simp only [ensureTrace, List.mem_cons, List.mem_append]
  tauto

/-- An unrecognized first keyword makes `list` treat the whole argument list
as specs. -/
theorem listOp_fallthrough (env : Engine) (cmd : String) (rest : List String)
    (h : cmd ∉ (["installed", "upgrades", "available", "repos", "repositories"] : List String)) :
    listOp env (cmd :: rest) =
      Except.ok ((cmd :: rest).flatMap fun spec => (env.resolveSpec spec).map packageDict) := by
  simp only [List.mem_cons, List.mem_singleton, not_or] at h
  obtain ⟨h1, h2, h3, h4, h5⟩ := h
  simp [listOp, h1, h2, h3, h4, h5]

/-- A flat map over specs that all resolve to nothing is empty. -/
theorem flatMap_specs_nil (env : Engine) (l : List String)
    (h : ∀ s ∈ l, env.resolveSpec s = []) :
    (l.flatMap fun spec => (env.resolveSpec spec).map packageDict) = [] := by
  induction l with
  | nil => simp
  | cons a t ih =>
    rw [List.flatMap_cons, h a (List.mem_cons_self a t),
      ih fun s hs => h s (List.mem_cons_of_mem a hs)]
    simp

/-- Every event of `_do_transaction` is the download, the description
annotation, the run, or a report line. -/
theorem mem_doTransaction_shape (env : Engine) (tx : TransactionData) (e : Event)
    (h : e ∈ doTransaction env tx) :
    e = Event.download ∨ e = Event.setDescription ("Ansible") ∨ e = Event.run ∨
      reportOnly e := by
  rw [doTransaction] at h
  rcases List.mem_cons.mp h with rfl | h
  · exact Or.inl rfl
  rcases List.mem_cons.mp h with rfl | h
  · exact Or.inr (Or.inl rfl)
  rcases List.mem_cons.mp h with rfl | h
  · exact Or.inr (Or.inr (Or.inl rfl))
  · exact Or.inr (Or.inr (Or.inr (runReport_reportOnly env tx e h)))

/-- Every event of an `ensure` trace is one of the known constructors, with
intent events drawn from the goal intents. -/
theorem mem_ensureTrace_shape (env : Engine) (intents : List Intent)
    (tx : TransactionData) (e : Event) (h : e ∈ ensureTrace env intents tx) :
    e = Event.newGoal ∨ e ∈ intents.map Event.addIntent ∨ e = Event.resolve ∨
      e = Event.download ∨ e = Event.setDescription ("Ansible") ∨ e = Event.run ∨
      reportOnly e := by
  simp only [ensureTrace, List.mem_cons, List.mem_append] at h
  rcases h with rfl | h
  · exact Or.inl rfl
  rcases h with h | h
  · exact Or.inr (Or.inl h)
  rcases h with rfl | h
  · exact Or.inr (Or.inr (Or.inl rfl))
  rcases h with h | h
  · rcases h with h | h
    · rcases h with h | h
      · exact Or.inr (Or.inr (Or.inr (Or.inr (Or.inr (Or.inr
          (sigEvents_reportOnly env tx e h))))))
      · exact Or.inr (Or.inr (Or.inr (Or.inr (Or.inr (Or.inr
          (resolveReport_reportOnly tx e h))))))
    · exact Or.inr (Or.inr (Or.inr (Or.inr (Or.inr (Or.inr
        (summaryReport_reportOnly tx e h))))))
  · rcases mem_doTransaction_shape env tx e h with hc | hc | hc | hc
    · exact Or.inr (Or.inr (Or.inr (Or.inl hc)))
    · exact Or.inr (Or.inr (Or.inr (Or.inr (Or.inl hc))))
    · exact Or.inr (Or.inr (Or.inr (Or.inr (Or.inr (Or.inl hc)))))
    · exact Or.inr (Or.inr (Or.inr (Or.inr (Or.inr (Or.inr hc)))))

/-- C1: whenever `ensure` completes, resolution problems reported by the
resolver are printed to the caller but never abort the call: after the
report, the transaction is passed to download and execution (`run` happens
exactly once) regardless of whether the problem list is empty or not. -/
theorem claim_C1_resolution_problems_nonfatal (env : Engine) (cmd : String)
    (specs : List String) (intents : List Intent) (tr : List Event)
    (h : buildIntents env cmd specs = Except.ok intents)
    (h2 : ensure env cmd specs = Except.ok tr) :
    ((env.resolve intents).problems ≠ 0 →
      Event.print ("Following issues happened when resolving the transaction:") ∈ tr ∧
      ∀ l ∈ (env.resolve intents).resolveLogs, Event.print l ∈ tr) ∧
    Event.download ∈ tr ∧ tr.count Event.run = 1 := by
  have htr := ensure_ok_trace env cmd specs intents tr h h2
  subst htr
  refine ⟨fun hp => ⟨?_, fun l hl => ?_⟩,
    (download_run_mem_ensureTrace env intents (env.resolve intents)).1,
    ensureTrace_count_run env intents (env.resolve intents)⟩
  · apply mem_trace_of_mem_resolveReport
    rw [resolveReport, if_pos hp]
    exact List.mem_cons_self _ _
  · apply mem_trace_of_mem_resolveReport
    rw [resolveReport, if_pos hp]
    exact List.mem_cons_of_mem _ (List.mem_map_of_mem Event.print hl)

/-- C1 witness at a concrete engine whose resolver reports a problem. -/
theorem claim_C1_witness :
    Event.print ("Following issues happened when resolving the transaction:") ∈ trPresent ∧
    Event.print ("nothing provides foo") ∈ trPresent ∧
    Event.download ∈ trPresent ∧ trPresent.count Event.run = 1 := by
  have T := claim_C1_resolution_problems_nonfatal engFail ("present") (["zlib"])
    [Intent.install ("zlib")] trPresent (by rfl) (by rfl)
  exact ⟨(T.1 (by decide)).1, (T.1 (by decide)).2 ("nothing provides foo") (by decide),
    T.2.1, T.2.2⟩

/-- C2: `ensure latest *` adds exactly one whole-system-upgrade intent and
no per-spec upgrade intents. -/
theorem claim_C2_latest_star_system_upgrade (env : Engine) (tr : List Event)
    (h : ensure env ("latest") (["*"]) = Except.ok tr) :
    buildIntents env ("latest") (["*"]) = Except.ok [Intent.rpmUpgrade] ∧
    tr.count (Event.addIntent Intent.rpmUpgrade) = 1 ∧
    ∀ s, Event.addIntent (Intent.upgrade s) ∉ tr := by
  have hb : buildIntents env ("latest") (["*"]) = Except.ok [Intent.rpmUpgrade] := by rfl
  have htr := ensure_ok_trace env ("latest") (["*"]) _ tr hb h
  subst htr
  refine ⟨hb, ?_, ?_⟩
  · have hS := count_eq_zero_of_reportOnly _
      (sigEvents_reportOnly env (env.resolve [Intent.rpmUpgrade]))
      (Event.addIntent Intent.rpmUpgrade) (by simp) (by simp)
    have hR := count_eq_zero_of_reportOnly _
      (resolveReport_reportOnly (env.resolve [Intent.rpmUpgrade]))
      (Event.addIntent Intent.rpmUpgrade) (by simp) (by simp)
    have hY := count_eq_zero_of_reportOnly _
      (summaryReport_reportOnly (env.resolve [Intent.rpmUpgrade]))
      (Event.addIntent Intent.rpmUpgrade) (by simp) (by simp)
    have hD := count_eq_zero_of_reportOnly _
      (runReport_reportOnly env (env.resolve [Intent.rpmUpgrade]))
      (Event.addIntent Intent.rpmUpgrade) (by simp) (by simp)
    simp [ensureTrace, doTransaction, List.count_cons, List.count_append, hS, hR, hY, hD]
  · intro s hm
    rcases mem_ensureTrace_shape env [Intent.rpmUpgrade] (env.resolve [Intent.rpmUpgrade])
        (Event.addIntent (Intent.upgrade s)) hm with hc | hc | hc | hc | hc | hc | hc
    · exact Event.noConfusion hc
    · rcases List.mem_map.mp hc with ⟨i, hi, heq⟩
      rw [List.mem_singleton.mp hi] at heq
      exact Intent.noConfusion (Event.addIntent.inj heq)
    · exact Event.noConfusion hc
    · exact Event.noConfusion hc
    · exact Event.noConfusion hc
    · exact Event.noConfusion hc
    · rcases hc with ⟨s0, hs⟩ | ⟨p, hpk⟩
      · exact Event.noConfusion hs
      · exact Event.noConfusion hpk

/-- C2 witness at a concrete engine. -/
theorem claim_C2_witness :
    buildIntents engFail ("latest") (["*"]) = Except.ok [Intent.rpmUpgrade] ∧
    trLatestStar.count (Event.addIntent Intent.rpmUpgrade) = 1 ∧
    Event.addIntent (Intent.upgrade ("zlib")) ∉ trLatestStar := by
  have T := claim_C2_latest_star_system_upgrade engFail trLatestStar (by rfl)
  exact ⟨T.1, T.2.1, T.2.2 ("zlib")⟩

/-- C3: an unrecognized `ensure` action adds no intent, the goal is still
resolved, the empty transaction is reported as empty, and execution is
still attempted. -/
theorem claim_C3_unknown_action_empty_goal (env : Engine) (cmd : String) (specs : List String)
    (h : cmd ∉ (["latest", "installed", "present", "absent", "autoremove"] : List String))
    (h2 : (env.resolve []).packages = []) :
    ensure env cmd specs = Except.ok (ensureTrace env [] (env.resolve [])) ∧
    (∀ i, Event.addIntent i ∉ ensureTrace env [] (env.resolve [])) ∧
    Event.resolve ∈ ensureTrace env [] (env.resolve []) ∧
    Event.print ("Transaction is empty.") ∈ ensureTrace env [] (env.resolve []) ∧
    (ensureTrace env [] (env.resolve [])).count Event.run = 1 := by
  have hl : cmd ≠ "latest" := fun he => h (by rw [he]; decide)
  have hi : cmd ≠ "installed" := fun he => h (by rw [he]; decide)
  have hp : cmd ≠ "present" := fun he => h (by rw [he]; decide)
  have ha : cmd ≠ "absent" := fun he => h (by rw [he]; decide)
  have hr : cmd ≠ "autoremove" := fun he => h (by rw [he]; decide)
  have hb : buildIntents env cmd specs = Except.ok [] := by
    simp [buildIntents, hl, hi, hp, ha, hr]
  refine ⟨ensure_ok_eq env cmd specs [] hb, fun i hm => ?_, ?_, ?_,
    ensureTrace_count_run env [] (env.resolve [])⟩
  · rcases mem_ensureTrace_shape env [] (env.resolve []) (Event.addIntent i) hm with
      hc | hc | hc | hc | hc | hc | hc
    · exact Event.noConfusion hc
    · simp at hc
    · exact Event.noConfusion hc
    · exact Event.noConfusion hc
    · exact Event.noConfusion hc
    · exact Event.noConfusion hc
    · rcases hc with ⟨s0, hs⟩ | ⟨p, hpk⟩
      · exact Event.noConfusion hs
      · exact Event.noConfusion hpk
  · simp [ensureTrace]
  · apply mem_trace_of_mem_summaryReport
    rw [summaryReport, if_pos h2]
    exact List.mem_singleton.mpr rfl

/-- C3 witness at a concrete unrecognized action. -/
theorem claim_C3_witness :
    ensure engEmpty ("frobnicate") (["x"]) = Except.ok trUnknown ∧
    Event.addIntent (Intent.install ("x")) ∉ trUnknown ∧
    Event.resolve ∈ trUnknown ∧
    Event.print ("Transaction is empty.") ∈ trUnknown ∧
    trUnknown.count Event.run = 1 := by
  have T := claim_C3_unknown_action_empty_goal engEmpty ("frobnicate") (["x"])
    (by decide) (by rfl)
  exact ⟨T.1, T.2.1 (Intent.install ("x")), T.2.2.1, T.2.2.2.1, T.2.2.2.2⟩

/-- C4: a `list` call whose first argument is no recognized keyword resolves
every argument (the first included) as a package spec, and with no matches
anywhere the result is the empty list. -/
theorem claim_C4_list_fallthrough_specs (env : Engine) (cmd : String) (rest : List String)
    (h : cmd ∉ (["installed", "upgrades", "available", "repos", "repositories"] : List String)) :
    listOp env (cmd :: rest) =
      Except.ok ((cmd :: rest).flatMap fun spec => (env.resolveSpec spec).map packageDict) ∧
    ((∀ s ∈ cmd :: rest, env.resolveSpec s = []) → listOp env (cmd :: rest) = Except.ok []) := by
  refine ⟨listOp_fallthrough env cmd rest h, fun hall => ?_⟩
  rw [listOp_fallthrough env cmd rest h, flatMap_specs_nil env (cmd :: rest) hall]

/-- C4 witness at a concrete engine with no matches. -/
theorem claim_C4_witness :
    listOp engEmpty (["rpm", "nosuchpkg"]) =
      Except.ok ((["rpm", "nosuchpkg"] : List String).flatMap fun spec =>
        (engEmpty.resolveSpec spec).map packageDict) ∧
    listOp engEmpty (["rpm", "nosuchpkg"]) = Except.ok [] := by
  have T := claim_C4_list_fallthrough_specs engEmpty ("rpm") (["nosuchpkg"]) (by decide)
  exact ⟨T.1, T.2 fun s _ => rfl⟩

/-- C5: in the spec fall-through of `list`, each spec is resolved
independently, the results are concatenated in argument order, and nothing
is deduplicated: the length of the result is the sum of the per-spec match
counts. -/
theorem claim_C5_list_specs_concat_no_dedup (env : Engine) (cmd : String) (rest : List String)
    (L : List (List (String × String)))
    (h : cmd ∉ (["installed", "upgrades", "available", "repos", "repositories"] : List String))
    (h2 : listOp env (cmd :: rest) = Except.ok L) :
    L = ((cmd :: rest).map fun spec => (env.resolveSpec spec).map packageDict).flatten ∧
    L.length = ((cmd :: rest).map fun spec => (env.resolveSpec spec).length).sum := by
  rw [listOp_fallthrough env cmd rest h] at h2
  have hL := Except.ok.inj h2
  subst hL
  constructor
  · rw [List.flatMap_def]
  · rw [List.flatMap_def, List.length_flatten, List.map_map]
    simp [Function.comp_def]

/-- C5 witness: two specs matching the same package yield its dict twice. -/
theorem claim_C5_witness :
    lDup = ((["zlib", "zl*"] : List String).map fun spec =>
      (engFail.resolveSpec spec).map packageDict).flatten ∧
    lDup.length = ((["zlib", "zl*"] : List String).map fun spec =>
      (engFail.resolveSpec spec).length).sum := by
  exact claim_C5_list_specs_concat_no_dedup engFail ("zlib") (["zl*"]) lDup
    (by decide) (by rfl)

/-- C6: fewer than 3 argv entries prints the usage line and exits with
status 1 before any engine initialization, `list` or `ensure` logic. -/
theorem claim_C6_usage_error (env : Engine) (argv : List String) (h : argv.length < 3) :
    mainRun env argv = ([Event.print ("Invalid args")], ExitStatus.code 1) := by
  unfold mainRun
  rw [if_pos h]

/-- C6 witness at a two-entry argv. -/
theorem claim_C6_witness :
    mainRun engEmpty (["dnf5.py", "list"]) =
      ([Event.print ("Invalid args")], ExitStatus.code 1) :=
  claim_C6_usage_error engEmpty (["dnf5.py", "list"]) (by decide)

/-- C7: when the resolved transaction is non-empty, every transaction
package (in particular every inbound one) has its signature checked before
the run event, and execution is still attempted no matter how the checks
turn out. -/
theorem claim_C7_signature_check_before_run (env : Engine) (cmd : String) (specs : List String)
    (intents : List Intent) (tr : List Event)
    (h : buildIntents env cmd specs = Except.ok intents)
    (h2 : ensure env cmd specs = Except.ok tr)
    (_h3 : (env.resolve intents).packages ≠ []) :
    (∀ tp ∈ (env.resolve intents).packages, Event.checkSig tp.pkg ∈ preRun tr) ∧
    tr.count Event.run = 1 := by
  have htr := ensure_ok_trace env cmd specs intents tr h h2
  subst htr
  refine ⟨fun tp htp => ?_, ensureTrace_count_run env intents (env.resolve intents)⟩
  rw [preRun_ensureTrace]
  have hmem := checkSig_mem_sigEvents env (env.resolve intents) tp htp
  simp only [List.mem_cons, List.mem_append]
  tauto

/-- C7 witness: a failing signature check and the run event still present. -/
theorem claim_C7_witness :
    Event.checkSig pkgA ∈ preRun trPresent ∧ trPresent.count Event.run = 1 := by
  have T := claim_C7_signature_check_before_run engFail ("present") (["zlib"])
    [Intent.install ("zlib")] trPresent (by rfl) (by rfl) (by decide)
  exact ⟨T.1 tsA (by decide), T.2⟩

/-- C8: `_do_transaction` annotates the transaction with the fixed
description before the run, classifies the result code as success exactly on
the engine success constant, and on failure prints every reported problem
string. -/
theorem claim_C8_do_transaction_contract (env : Engine) (tx : TransactionData) :
    preRun (doTransaction env tx) = [Event.download, Event.setDescription ("Ansible")] ∧
    Event.run ∈ doTransaction env tx ∧
    (tx.runResult = env.successCode →
      runReport env tx = [Event.print ("Transaction completed successfully.")]) ∧
    (tx.runResult ≠ env.successCode →
      (runReport env tx).head? =
        some (Event.print ("Transaction was not successful: "
          ++ env.resultToString tx.runResult)) ∧
      ∀ p ∈ tx.runProblems, Event.print p ∈ doTransaction env tx) := by
  refine ⟨?_, by simp [doTransaction], fun hs => by simp [runReport, hs],
    fun hn => ⟨by simp [runReport, hn], fun p hp => ?_⟩⟩
  · rw [preRun, doTransaction]
    simp [List.takeWhile_cons]
  · have hne : tx.runProblems ≠ [] := by
      intro hnil
      rw [hnil] at hp
      simp at hp
    simp only [doTransaction, runReport, if_neg hn, if_neg hne, List.mem_cons]
    refine Or.inr (Or.inr (Or.inr (Or.inr (Or.inr ?_))))
    exact List.mem_map_of_mem Event.print hp

/-- C8 witness at a failing run with a problem log. -/
theorem claim_C8_witness :
    preRun (doTransaction engFail txFail) =
      [Event.download, Event.setDescription ("Ansible")] ∧
    Event.run ∈ doTransaction engFail txFail ∧
    Event.print ("scriptlet failure") ∈ doTransaction engFail txFail := by
  have T := claim_C8_do_transaction_contract engFail txFail
  exact ⟨T.1, T.2.1, (T.2.2.2 (by decide)).2 ("scriptlet failure") (by decide)⟩

/-- C9: every completed `ensure` invocation creates exactly one goal,
resolves it exactly once, and runs the resulting transaction exactly once. -/
theorem claim_C9_single_resolve_single_run (env : Engine) (cmd : String) (specs : List String)
    (tr : List Event) (h : ensure env cmd specs = Except.ok tr) :
    tr.count Event.newGoal = 1 ∧ tr.count Event.resolve = 1 ∧ tr.count Event.run = 1 := by
  cases hb : buildIntents env cmd specs with
  | error e =>
    rw [ensure, hb] at h
    exact Except.noConfusion h
  | ok intents =>
    have htr := ensure_ok_trace env cmd specs intents tr hb h
    subst htr
    exact ⟨ensureTrace_count_newGoal env intents (env.resolve intents),
      ensureTrace_count_resolve env intents (env.resolve intents),
      ensureTrace_count_run env intents (env.resolve intents)⟩

/-- C9 witness at a concrete `ensure absent` call. -/
theorem claim_C9_witness :
    trAbsent.count Event.newGoal = 1 ∧ trAbsent.count Event.resolve = 1 ∧
    trAbsent.count Event.run = 1 :=
  claim_C9_single_resolve_single_run engEmpty ("absent") (["zlib"]) trAbsent (by rfl)

/-- C10: `ensure latest` with no specs raises an uncaught IndexError when
the first spec is inspected, and the CLI invocation with exactly three argv
entries passes the usage check, initializes the engine, and then dies on
that error. -/
theorem claim_C10_latest_empty_specs_raises (env : Engine) :
    ensure env ("latest") [] = Except.error PyErr.indexError ∧
    mainRun env (["dnf5.py", "ensure", "latest"]) =
      ([Event.initEngine], ExitStatus.uncaught PyErr.indexError) := by
  exact ⟨rfl, rfl⟩

/-- C10 witness at a concrete engine. -/
theorem claim_C10_witness :
    ensure engEmpty ("latest") [] = Except.error PyErr.indexError ∧
    mainRun engEmpty (["dnf5.py", "ensure", "latest"]) =
      ([Event.initEngine], ExitStatus.uncaught PyErr.indexError) :=
  claim_C10_latest_empty_specs_raises engEmpty

end Dnf5
